import Mathlib

/-!
Shallow embedding of the montana-bot subscription analytics pipeline
(`analyze_subscriptions.py`, `scripts/reimport_with_cancellations.py`,
`scripts/import_telegram_export.py`).

Modelling conventions:
* Telegram message timestamps are ISO-8601 date strings in the source; string
  comparison on them coincides with chronological order, so dates are
  modelled as `Nat`.
* Python `float` amounts are modelled as `ℚ`; the decimal parser below models
  the plain decimal forms (`"9.99"`, `"5"`, optional sign) accepted by
  Python's `float`, which is all that the bold `€...` spans can contain.
* Python truthiness: `None`, `0`, `0.0` and `""` are falsy; guards of the
  form `if amount:` / `if not user_id:` are translated accordingly.
-/

namespace Montana

/-- One annotated span (`text_entities` item) of a Telegram-export message:
a `type` tag, the span text (default `''` via `.get('text','')`), and the
optional numeric `user_id` payload carried by `mention_name` entities. -/
structure Entity where
  type : String
  text : String
  user_id : Option Nat := none
deriving Repr, DecidableEq

/-- One fragment of a message `text` field: a plain string or a styled run
(dict with a `text` key).  A plain-string `text` field is the one-fragment
list. -/
inductive TextItem where
  | str (s : String)
  | styled (text : String)
deriving Repr, DecidableEq

/-- A Telegram-export message, restricted to the fields the pipeline reads:
the (possibly segmented) body, the entity list, and the `date`. -/
structure Message where
  text : List TextItem
  text_entities : List Entity
  date : Option Nat := none
deriving Repr, DecidableEq

/-- `extract_text`: concatenate all fragments of the body as plain text,
discarding style (string items verbatim, dict items via their `text`). -/
def extract_text (m : Message) : String :=
  m.text.foldl (fun acc item =>
    match item with
    | .str s => acc ++ s
    | .styled t => acc ++ t) ""

/-- Substring containment, `pat in s` of Python. -/
def strContains (s pat : String) : Bool :=
  s.data.tails.any (fun suf => pat.data.isPrefixOf suf)

/-- ASCII whitespace, the characters `str.strip()` removes in the texts at
hand. -/
def isSpaceChar (c : Char) : Bool :=
  c = ' ' ∨ c = '\t' ∨ c = '\n' ∨ c = '\r'

/-- Python `s.strip()`: drop leading and trailing whitespace. -/
def pyStrip (s : String) : String :=
  ⟨((s.data.dropWhile isSpaceChar).reverse.dropWhile isSpaceChar).reverse⟩

/-- `extract_user_id`: scan `text_entities` in order; a `mention` entity
returns its stripped text; a `mention_name` entity returns
`"user_" ++ toString id` when its `user_id` is truthy (present and nonzero),
otherwise scanning continues; no match gives `None`. -/
def extract_user_id : List Entity → Option String
  | [] => none
  | e :: rest =>
    if e.type = "mention" then some (pyStrip e.text)
    else if e.type = "mention_name" then
      match e.user_id with
      | some uid => if uid ≠ 0 then some ("user_" ++ toString uid) else extract_user_id rest
      | none => extract_user_id rest
    else extract_user_id rest

/-- Value of a digit string read in base 10. -/
def digitsVal (cs : List Char) : Nat :=
  cs.foldl (fun a c => a * 10 + (c.toNat - 48)) 0

/-- Parse an unsigned Python decimal literal: digits, optionally split by a
single point, at least one digit overall.  The value `i.f` is the exact
rational `(i * 10^|f| + f) / 10^|f|`. -/
def parseUnsigned (cs : List Char) : Option ℚ :=
  match cs.splitOn '.' with
  | [i] =>
    if i ≠ [] ∧ i.all Char.isDigit then some (mkRat (digitsVal i) 1) else none
  | [i, f] =>
    if (i ≠ [] ∨ f ≠ []) ∧ i.all Char.isDigit ∧ f.all Char.isDigit then
      some (mkRat (digitsVal i * 10 ^ f.length + digitsVal f) (10 ^ f.length))
    else none
  | _ => none

/-- Python `float(s)` on the decimal strings occurring here: optional sign,
then an unsigned decimal literal; anything else raises `ValueError`,
modelled as `none`. -/
def pyFloat? (s : String) : Option ℚ :=
  match s.data with
  | '-' :: rest => (parseUnsigned rest).map (fun q => -q)
  | '+' :: rest => parseUnsigned rest
  | cs => parseUnsigned cs

/-- Python `text.startswith('€')`: the first character is the sigil. -/
def startsWithEuro (t : String) : Bool :=
  match t.data with
  | c :: _ => c = '€'
  | [] => false

/-- The cleanup applied to a bold span before parsing: drop every `€`
(`.replace('€','')`) and turn every decimal comma into a point
(`.replace(',','.')`); with one-character patterns, `str.replace` is
exactly this character map. -/
def cleanAmountText (t : String) : String :=
  ⟨(t.data.filter (fun c => c ≠ '€')).map (fun c => if c = ',' then '.' else c)⟩

/-- `extract_amount`: scan `text_entities` for bold spans starting with `€`;
try to parse each such span (cleaned) as a float; a `ValueError` is swallowed
(`except ValueError: pass`) and the scan continues; no span parses ⇒ `None`. -/
def extract_amount : List Entity → Option ℚ
  | [] => none
  | e :: rest =>
    if e.type = "bold" ∧ startsWithEuro e.text then
      match pyFloat? (cleanAmountText e.text) with
      | some v => some v
      | none => extract_amount rest
    else extract_amount rest

/-! ### Aggregator (`analyze_subscriptions.py`)

`user_data` is a dict `user_id → (dict amount → {subscriptions, renewals})`,
plus the user-level `'_cancelled'` marker that the cancellation branch stores
under the string key `'_cancelled'` of the per-user dict.  Dicts are modelled
as insertion-ordered association lists with unique keys. -/

/-- Per-(user, amount) record: the lists of subscription and renewal dates. -/
structure TierInfo where
  subscriptions : List Nat := []
  renewals : List Nat := []
deriving Repr, DecidableEq

/-- Per-user record: the amount-keyed dict plus the `'_cancelled'` marker. -/
structure UserInfo where
  tiers : List (ℚ × TierInfo) := []
  cancelled : Bool := false
deriving Repr, DecidableEq

/-- `user_data`, an insertion-ordered dict keyed by `user_id`. -/
abbrev UserData := List (String × UserInfo)

/-- Dict lookup on an association list. -/
def lookupKey {α β : Type} [DecidableEq α] (m : List (α × β)) (k : α) : Option β :=
  (m.find? (fun p => p.1 = k)).map (·.2)

/-- Dict update `m[k] = f(m.get(k, default))` keeping insertion order:
the (unique) existing entry for `k` is updated in place, a new key is
appended at the end. -/
def updateKey {α β : Type} [DecidableEq α] : List (α × β) → α → β → (β → β) →
    List (α × β)
  | [], k, dflt, f => [(k, f dflt)]
  | p :: rest, k, dflt, f =>
    if p.1 = k then (p.1, f p.2) :: rest else p :: updateKey rest k dflt f

/-- The mutation `user_data[user_id][amount]['subscriptions'].append(date)`
(defaultdicts create missing user and tier records on access). -/
def recordSub (ud : UserData) (u : String) (a : ℚ) (d : Nat) : UserData :=
  updateKey ud u {} (fun ui =>
    { ui with tiers := updateKey ui.tiers a {} (fun ti =>
        { ti with subscriptions := ti.subscriptions ++ [d] }) })

/-- The mutation `user_data[user_id][amount]['renewals'].append(date)`. -/
def recordRenew (ud : UserData) (u : String) (a : ℚ) (d : Nat) : UserData :=
  updateKey ud u {} (fun ui =>
    { ui with tiers := updateKey ui.tiers a {} (fun ti =>
        { ti with renewals := ti.renewals ++ [d] }) })

/-- The mutation `user_data[user_id]['_cancelled'] = date` (only the presence
of the key is ever read, so the marker is a flag). -/
def recordCancel (ud : UserData) (u : String) : UserData :=
  updateKey ud u {} (fun ui => { ui with cancelled := true })

/-- The created-message phrase. -/
def createdPhrase : String := "оформил подписку"

/-- The renewed-message phrase. -/
def renewedPhrase : String := "продлил подписку"

/-- Python truthiness of an optional amount: `if amount:` fails on `None`
and on `0.0`. -/
def truthyAmount : Option ℚ → Bool
  | none => false
  | some a => a ≠ 0

/-- One iteration of the message loop of `analyze_subscriptions` (lines
69–106): skip messages without a truthy user id; classify by phrase;
created/renewed require a truthy amount, else the message is dropped;
a cancellation stores the user-level marker. -/
def processMsg (ud : UserData) (m : Message) : UserData :=
  match extract_user_id m.text_entities with
  | none => ud
  | some u =>
    if u = "" then ud
    else
      let text := extract_text m
      let d := m.date.getD 0
      if strContains text createdPhrase then
        match extract_amount m.text_entities with
        | some a => if a ≠ 0 then recordSub ud u a d else ud
        | none => ud
      else if strContains text renewedPhrase then
        match extract_amount m.text_entities with
        | some a => if a ≠ 0 then recordRenew ud u a d else ud
        | none => ud
      else if strContains text "отменил" ∧ strContains text "подписку" then
        recordCancel ud u
      else ud

/-- The whole first loop: fold `processMsg` over the message list. -/
def buildUserData (msgs : List Message) : UserData :=
  msgs.foldl processMsg []

/-- The test `amount in amounts_data and amounts_data[amount]['subscriptions']`:
user `u` is placed in `users_with_amount` for tier `a` iff their tier record
exists and holds at least one subscription date. -/
def isSubscriber (ui : UserInfo) (a : ℚ) : Bool :=
  match lookupKey ui.tiers a with
  | some ti => ti.subscriptions ≠ []
  | none => false

/-- Per-tier metrics of `analyze_subscriptions` (lines 124–185). -/
structure TierStats where
  total_users : Nat
  total_cancelled : Nat
  active_users : Int
  churn_rate : ℚ
  retention_rate : ℚ
  renewals_per_user : List Nat
deriving Repr

/-- Compute one tier's statistics block (lines 128–162): the subscriber set,
the cancelled subset (user-level `'_cancelled'` marker), the per-subscriber
renewal counts, and the rates, which default to `0` when the tier has no
subscribers. -/
def tierStats (ud : UserData) (a : ℚ) : TierStats :=
  let subs := ud.filter (fun p => isSubscriber p.2 a)
  let cancelled := subs.filter (fun p => p.2.cancelled)
  let renews := subs.map (fun p =>
    ((lookupKey p.2.tiers a).getD {}).renewals.length)
  let total_users := subs.length
  let total_cancelled := cancelled.length
  { total_users := total_users
    total_cancelled := total_cancelled
    active_users := (total_users : Int) - total_cancelled
    churn_rate :=
      if total_users > 0 then ((total_cancelled : ℚ) / total_users) * 100 else 0
    retention_rate :=
      if total_users > 0 then
        (((total_users : ℚ) - total_cancelled) / total_users) * 100
      else 0
    renewals_per_user := renews }

/-- The renewal-distribution block (lines 171–180), computed only when
`renewals_per_user` is non-empty: `min`, `max`,
`sorted(renewals)[len(renewals)//2]`, and the 0/1/>1 bucket counts. -/
structure RenewalDist where
  minR : Nat
  maxR : Nat
  median : Nat
  no_renewals : Nat
  one_renewal : Nat
  multiple_renewals : Nat
deriving Repr, DecidableEq

/-- Distribution statistics over the per-subscriber renewal counts; `none`
on the empty list (the source guards with `if renewals_per_user:`). -/
def renewalDist : List Nat → Option RenewalDist
  | [] => none
  | x :: xs =>
    let l := x :: xs
    some
      { minR := xs.foldl Nat.min x
        maxR := xs.foldl Nat.max x
        median := ((l.mergeSort (fun a b => a ≤ b)).getD (l.length / 2) 0)
        no_renewals := l.countP (fun r => r = 0)
        one_renewal := l.countP (fun r => r = 1)
        multiple_renewals := l.countP (fun r => r > 1) }

/-! ### Reconciler (`scripts/reimport_with_cancellations.py`)

The first pass collects, per user, the raw event dicts
`{date, amount, event_type, username}` (amount `None` for cancellations).
The second pass sorts each user's events by date and walks them, keeping
`active_amounts : amount → last subscription date` to resolve cancellations:
a cancellation takes the key with the maximal stored date, emits a row with
that amount, and deletes the key; with no active amount it is only counted
as unmatched. -/

/-- `event_type` of a collected event. -/
inductive EventKind where
  | created
  | renewed
  | cancelled
deriving Repr, DecidableEq

/-- One collected raw event dict of the first pass. -/
structure UserEvent where
  date : Nat
  amount : Option ℚ
  kind : EventKind
  username : Option String := none
deriving Repr, DecidableEq

/-- The username extraction of the first pass: the first `mention` entity's
text with every `@` removed. -/
def firstMention : List Entity → Option String
  | [] => none
  | e :: rest =>
    if e.type = "mention" then some ⟨e.text.data.filter (fun c => c ≠ '@')⟩
    else firstMention rest

/-- One iteration of the first-pass loop (lines 90–135): skip when the user
id or the date is missing/falsy; created/renewed need a truthy amount;
cancellations are collected with `amount = None`. -/
def collectMsg (acc : List (String × List UserEvent)) (m : Message) :
    List (String × List UserEvent) :=
  match extract_user_id m.text_entities, m.date with
  | some u, some d =>
    if u = "" then acc
    else
      let text := extract_text m
      let uname := firstMention m.text_entities
      if strContains text createdPhrase then
        match extract_amount m.text_entities with
        | some a =>
          if a ≠ 0 then
            updateKey acc u [] (fun evs => evs ++ [⟨d, some a, .created, uname⟩])
          else acc
        | none => acc
      else if strContains text renewedPhrase then
        match extract_amount m.text_entities with
        | some a =>
          if a ≠ 0 then
            updateKey acc u [] (fun evs => evs ++ [⟨d, some a, .renewed, uname⟩])
          else acc
        | none => acc
      else if strContains text "отменил" ∧ strContains text "подписку" then
        updateKey acc u [] (fun evs => evs ++ [⟨d, none, .cancelled, uname⟩])
      else acc
  | _, _ => acc

/-- The whole first pass: `user_subscriptions`. -/
def collectEvents (msgs : List Message) : List (String × List UserEvent) :=
  msgs.foldl collectMsg []

/-- A row inserted into `subscription_events` for one user:
`(amount, event_type, event_date, username)`. -/
structure Row where
  amount : Option ℚ
  kind : EventKind
  date : Nat
  username : Option String := none
deriving Repr, DecidableEq

/-- Second-pass state for one user: `active_amounts` (dict amount → last
subscription date, insertion-ordered), the rows inserted so far, and the
`imported` / `cancellations_matched` / `cancellations_unmatched` counters. -/
structure ReconState where
  active : List (Option ℚ × Nat) := []
  emitted : List Row := []
  imported : Nat := 0
  matched : Nat := 0
  unmatched : Nat := 0
deriving Repr, DecidableEq

/-- Dict assignment `m[k] = v`, insertion-ordered. -/
def setVal {α β : Type} [DecidableEq α] (m : List (α × β)) (k : α) (v : β) :
    List (α × β) :=
  updateKey m k v (fun _ => v)

/-- Python `max(items, key=lambda x: x[1])` on a non-empty association list:
fold keeping the current maximum, a later item replacing it only when
strictly greater (so the first maximal item wins). -/
def maxBySnd {α : Type} (x : α × Nat) (xs : List (α × Nat)) : α × Nat :=
  xs.foldl (fun acc p => if p.2 > acc.2 then p else acc) x

/-- One step of the second-pass loop (lines 153–195). -/
def reconStep (st : ReconState) (ev : UserEvent) : ReconState :=
  match ev.kind with
  | .created =>
    { st with
      active := setVal st.active ev.amount ev.date
      emitted := st.emitted ++ [⟨ev.amount, .created, ev.date, ev.username⟩]
      imported := st.imported + 1 }
  | .renewed =>
    { st with
      emitted := st.emitted ++ [⟨ev.amount, .renewed, ev.date, ev.username⟩]
      imported := st.imported + 1 }
  | .cancelled =>
    match st.active with
    | [] => { st with unmatched := st.unmatched + 1 }
    | x :: xs =>
      let last_amount := (maxBySnd x xs).1
      { st with
        active := (x :: xs).filter (fun p => p.1 ≠ last_amount)
        emitted := st.emitted ++ [⟨last_amount, .cancelled, ev.date, ev.username⟩]
        imported := st.imported + 1
        matched := st.matched + 1 }

/-- Reconcile one user: stable-sort the collected events by date ascending
(`events.sort(key=lambda x: x['date'])`) and fold the second-pass step from
the empty state. -/
def reconcileUser (evs : List UserEvent) : ReconState :=
  (evs.mergeSort (fun a b => a.date ≤ b.date)).foldl reconStep {}

/-! ### Spec-level redescriptions used by the refinement claims -/

/-- Spec-style description of the amount scan, for comparison with
`extract_amount`: of all bold spans starting with `€`, the first whose
cleaned text parses as a float wins. -/
def extractAmountSpec (es : List Entity) : Option ℚ :=
  (es.filterMap (fun e =>
    if e.type = "bold" ∧ startsWithEuro e.text then
      pyFloat? (cleanAmountText e.text)
    else none)).head?

/-- An entity on which the identity scan stops: a `mention`, or a
`mention_name` whose `user_id` is present and truthy (nonzero). -/
def identMatch (e : Entity) : Prop :=
  e.type = "mention" ∨
    (e.type = "mention_name" ∧ ∃ uid, e.user_id = some uid ∧ uid ≠ 0)

/-- The condition under which a message records a subscription date for
`(u, t)`: a truthy extracted identity equal to `u`, the created-phrase in
the concatenated text, and a truthy extracted amount equal to `t`. -/
def createdMsgFor (u : String) (t : ℚ) (m : Message) : Prop :=
  extract_user_id m.text_entities = some u ∧ u ≠ "" ∧
  strContains (extract_text m) createdPhrase = true ∧
  extract_amount m.text_entities = some t ∧ t ≠ 0

/-- User `u` is in tier `t`'s subscriber set of `ud`: their record exists
and passes the `subscriptions`-non-empty test that `tierStats` filters on. -/
def isSubscriberIn (ud : UserData) (u : String) (t : ℚ) : Prop :=
  ∃ ui, lookupKey ud u = some ui ∧ isSubscriber ui t = true

/-! ### Concrete example data used by the claims -/

/-- The fixed tier set of the analyzer (`amounts = [1.0, 3.0, 5.0, 9.0]`). -/
def amounts : List ℚ := [1, 3, 5, 9]

/-- A message whose only subscription content is a renewal: a `mention`
identity `@alice`, a renewal phrase, and a bold `€5,00` amount span. -/
def msgRenewOnly : Message :=
  { text := [.str "X ", .styled "продлил подписку", .str " на сумму ",
      .styled "€5,00"]
    text_entities := [⟨"mention", "@alice", none⟩, ⟨"bold", "€5,00", none⟩]
    date := some 10 }

/-- A message creating a tier-5 subscription for `@carol`. -/
def msgCreated : Message :=
  { text := [.str "Y ", .styled "оформил подписку", .str " на сумму ",
      .styled "€5,00"]
    text_entities := [⟨"mention", "@carol", none⟩, ⟨"bold", "€5,00", none⟩]
    date := some 2 }

/-- A created-classified message whose bold amount is `€0,00`. -/
def msgZero : Message :=
  { text := [.styled "оформил подписку", .str " ", .styled "€0,00"]
    text_entities := [⟨"mention", "@carl", none⟩, ⟨"bold", "€0,00", none⟩]
    date := some 3 }

/-- A `user_data` state with four tier-5 subscribers of which exactly one
(`u1`) has the `'_cancelled'` marker, and one renewal for `u4`. -/
def exampleUD : UserData :=
  [("u1", ⟨[(5, ⟨[1], []⟩)], true⟩),
   ("u2", ⟨[(5, ⟨[2], []⟩)], false⟩),
   ("u3", ⟨[(5, ⟨[3], []⟩)], false⟩),
   ("u4", ⟨[(5, ⟨[4], [7]⟩)], false⟩)]

/-! ### Dictionary and maximum lemmas -/

theorem lookupKey_nil {α β : Type} [DecidableEq α] (k : α) :
    lookupKey ([] : List (α × β)) k = none := rfl

theorem lookupKey_cons {α β : Type} [DecidableEq α] (p : α × β)
    (m : List (α × β)) (k : α) :
    lookupKey (p :: m) k = if p.1 = k then some p.2 else lookupKey m k := by
  by_cases h : p.1 = k <;> simp [lookupKey, List.find?, h]

theorem lookupKey_updateKey {α β : Type} [DecidableEq α] (m : List (α × β))
    (k k' : α) (dflt : β) (f : β → β) :
    lookupKey (updateKey m k dflt f) k' =
      if k' = k then some (f ((lookupKey m k).getD dflt))
      else lookupKey m k' := by
  induction m with
  | nil =>
    by_cases h : k' = k <;> simp [updateKey, lookupKey_cons, lookupKey_nil, h]
    intro h'
    exact absurd h'.symm h
  | cons p rest ih =>
    rw [updateKey]
    by_cases hp : p.1 = k
    · by_cases h : k' = k
      · subst h
        simp [hp, lookupKey_cons]
      · have hp' : p.1 ≠ k' := by
          rw [hp]
          exact fun hh => h hh.symm
        have hkk' : k ≠ k' := fun hh => h hh.symm
        simp [hp, hp', h, hkk', lookupKey_cons]
    · by_cases h : k' = k
      · subst h
        have hp' : p.1 ≠ k' := hp
        simp [hp, hp', lookupKey_cons, ih]
      · simp only [if_neg hp, lookupKey_cons, ih, if_neg h]

theorem length_updateKey_le {α β : Type} [DecidableEq α] (m : List (α × β))
    (k : α) (dflt : β) (f : β → β) :
    (updateKey m k dflt f).length ≤ m.length + 1 := by
  induction m with
  | nil => simp [updateKey]
  | cons p rest ih =>
    rw [updateKey]
    by_cases hp : p.1 = k
    · simp [hp]
    · simpa [hp] using Nat.succ_le_succ ih

theorem maxBySnd_cons {α : Type} (x y : α × Nat) (ys : List (α × Nat)) :
    maxBySnd x (y :: ys) = maxBySnd (if y.2 > x.2 then y else x) ys := rfl

theorem maxBySnd_mem {α : Type} (x : α × Nat) (xs : List (α × Nat)) :
    maxBySnd x xs ∈ x :: xs := by
  induction xs generalizing x with
  | nil => simp [maxBySnd]
  | cons y ys ih =>
    rw [maxBySnd_cons]
    rcases List.mem_cons.mp (ih (if y.2 > x.2 then y else x)) with h | h
    · rw [h]
      by_cases hc : y.2 > x.2 <;> simp [hc]
    · simp [List.mem_cons.mpr (Or.inr h)]

theorem le_maxBySnd {α : Type} (x : α × Nat) (xs : List (α × Nat)) :
    ∀ p ∈ x :: xs, p.2 ≤ (maxBySnd x xs).2 := by
  induction xs generalizing x with
  | nil =>
    intro p hp
    simp only [List.mem_singleton] at hp
    simp [hp, maxBySnd]
  | cons y ys ih =>
    intro p hp
    rw [maxBySnd_cons]
    have hz : x.2 ≤ (if y.2 > x.2 then y else x).2 ∧
        y.2 ≤ (if y.2 > x.2 then y else x).2 := by
      by_cases hc : y.2 > x.2 <;> simp [hc] <;> omega
    have hzmax := ih (if y.2 > x.2 then y else x)
        (if y.2 > x.2 then y else x) (List.mem_cons_self _ _)
    rcases List.mem_cons.mp hp with h | h
    · subst h
      exact le_trans hz.1 hzmax
    · rcases List.mem_cons.mp h with h' | h'
      · subst h'
        exact le_trans hz.2 hzmax
      · exact ih _ p (List.mem_cons.mpr (Or.inr h'))

/-! ### Claim theorems -/

/-- C1: processing a Cancelled event while the open-tier map is non-empty
emits a row carrying the amount of the open tier whose stored `opened_at`
date is maximal (the selected entry is in the map and its date dominates all
entries), and exactly that key is deleted from the map; in particular the
user trace `[Created(5)@1, Created(9)@2, Cancelled@3]` resolves the
cancellation to tier 9 and leaves tier 5 open. -/
theorem C1_cancelled_resolves_most_recent :
    (∀ (st : ReconState) (ev : UserEvent), ev.kind = .cancelled →
      ∀ x xs, st.active = x :: xs →
        maxBySnd x xs ∈ st.active ∧
        (∀ p ∈ st.active, p.2 ≤ (maxBySnd x xs).2) ∧
        reconStep st ev =
          { st with
            active := st.active.filter (fun p => p.1 ≠ (maxBySnd x xs).1)
            emitted := st.emitted ++
              [⟨(maxBySnd x xs).1, .cancelled, ev.date, ev.username⟩]
            imported := st.imported + 1
            matched := st.matched + 1 }) ∧
    (reconcileUser
        [⟨1, some 5, .created, none⟩, ⟨2, some 9, .created, none⟩,
         ⟨3, none, .cancelled, none⟩]).emitted.getLast? =
      some ⟨some 9, .cancelled, 3, none⟩ ∧
    (reconcileUser
        [⟨1, some 5, .created, none⟩, ⟨2, some 9, .created, none⟩,
         ⟨3, none, .cancelled, none⟩]).active = [(some 5, 1)] := by
  refine ⟨?_, ?_, ?_⟩
  · intro st ev hk x xs hact
    refine ⟨hact ▸ maxBySnd_mem x xs, hact ▸ le_maxBySnd x xs, ?_⟩
    simp [reconStep, hk, hact]
  · rw [reconcileUser, List.mergeSort_of_sorted (by decide)]
    decide
  · rw [reconcileUser, List.mergeSort_of_sorted (by decide)]
    decide

/-- C1 witness: the step theorem applied to the concrete state holding open
tiers 5 (opened at 1) and 9 (opened at 2). -/
theorem C1_witness :
    reconStep ⟨[(some 5, 1), (some 9, 2)], [], 2, 0, 0⟩
        ⟨3, none, .cancelled, none⟩ =
      ⟨[(some 5, 1)], [⟨some 9, .cancelled, 3, none⟩], 3, 1, 0⟩ := by
  have h := C1_cancelled_resolves_most_recent.1
    ⟨[(some 5, 1), (some 9, 2)], [], 2, 0, 0⟩ ⟨3, none, .cancelled, none⟩
    rfl (some 5, 1) [(some 9, 2)] rfl
  rw [h.2.2]
  decide

/-- C2 counterexample: a Renewed event does not backfill the open-tier map,
so a user whose events are `[Renewed(5)@1, Cancelled@2]` gets an unmatched
cancellation (counter 1, only the renewal row emitted), contradicting the
claim that the cancellation would resolve to tier 5. -/
theorem C2_counterexample :
    (reconcileUser [⟨1, some 5, .renewed, none⟩]).active = [] ∧
    (reconcileUser
        [⟨1, some 5, .renewed, none⟩, ⟨2, none, .cancelled, none⟩]).unmatched
      = 1 ∧
    (reconcileUser
        [⟨1, some 5, .renewed, none⟩, ⟨2, none, .cancelled, none⟩]).emitted =
      [⟨some 5, .renewed, 1, none⟩] := by
  refine ⟨?_, ?_, ?_⟩ <;>
    · rw [reconcileUser, List.mergeSort_of_sorted (by decide)]
      decide

/-- C2 amended: processing a Renewed event emits its row unchanged and
leaves the open-tier map (and the matched/unmatched counters) untouched;
it does not insert the renewed tier, so a later cancellation cannot match
through it. -/
theorem C2_renewed_leaves_open_tiers (st : ReconState) (ev : UserEvent)
    (h : ev.kind = .renewed) :
    reconStep st ev =
      { st with
        emitted := st.emitted ++ [⟨ev.amount, .renewed, ev.date, ev.username⟩]
        imported := st.imported + 1 } := by
  simp [reconStep, h]

/-- C2 witness: the amended step theorem at a concrete renewal event from
the empty state. -/
theorem C2_witness :
    reconStep ⟨[], [], 0, 0, 0⟩ ⟨1, some 5, .renewed, none⟩ =
      ⟨[], [⟨some 5, .renewed, 1, none⟩], 1, 0, 0⟩ := by
  have h := C2_renewed_leaves_open_tiers ⟨[], [], 0, 0, 0⟩
    ⟨1, some 5, .renewed, none⟩ rfl
  rw [h]
  decide

/-- C3: a Cancelled event arriving on an empty open-tier map emits nothing
and only increments the unmatched counter by one; a user whose only event is
`Cancelled@1` yields zero emitted rows and unmatched count 1. -/
theorem C3_unmatched_cancellation :
    (∀ (st : ReconState) (ev : UserEvent), ev.kind = .cancelled →
      st.active = [] →
      reconStep st ev = { st with unmatched := st.unmatched + 1 }) ∧
    (reconcileUser [⟨1, none, .cancelled, none⟩]).emitted = [] ∧
    (reconcileUser [⟨1, none, .cancelled, none⟩]).unmatched = 1 := by
  refine ⟨?_, ?_, ?_⟩
  · intro st ev hk ha
    simp [reconStep, hk, ha]
  · rw [reconcileUser, List.mergeSort_of_sorted (by decide)]
    decide
  · rw [reconcileUser, List.mergeSort_of_sorted (by decide)]
    decide

/-- C3 witness: the step theorem applied to the empty state and a concrete
cancellation. -/
theorem C3_witness :
    reconStep ⟨[], [], 0, 0, 0⟩ ⟨1, none, .cancelled, none⟩ =
      ⟨[], [], 0, 0, 1⟩ := by
  have h := C3_unmatched_cancellation.1 ⟨[], [], 0, 0, 0⟩
    ⟨1, none, .cancelled, none⟩ rfl rfl
  rw [h]

theorem length_filter_lt_of_mem {α : Type} {x : α} {l : List α}
    {p : α → Bool} (hx : x ∈ l) (hp : p x = false) :
    (l.filter p).length < l.length := by
  induction l with
  | nil => cases hx
  | cons a l ih =>
    rw [List.filter_cons]
    rcases List.mem_cons.mp hx with h | h
    · subst h
      rw [hp]
      simp only [Bool.false_eq_true, if_false, List.length_cons]
      exact Nat.lt_succ_of_le (List.length_filter_le p l)
    · cases hpa : p a
      · simp only [Bool.false_eq_true, if_false, List.length_cons]
        exact Nat.lt_succ_of_lt (ih h)
      · simp only [if_pos rfl, List.length_cons]
        exact Nat.succ_lt_succ (ih h)

theorem length_setVal_le {α β : Type} [DecidableEq α] (m : List (α × β))
    (k : α) (v : β) : (setVal m k v).length ≤ m.length + 1 :=
  length_updateKey_le m k v (fun _ => v)

/-- Per-step conservation: one reconciler step can increase
`matched + |active|` only on a Created event, and then by at most one. -/
theorem reconStep_conserves (st : ReconState) (ev : UserEvent) :
    (reconStep st ev).matched + (reconStep st ev).active.length ≤
      st.matched + st.active.length + (if ev.kind = .created then 1 else 0) := by
  cases hk : ev.kind
  · have h := length_setVal_le st.active ev.amount ev.date
    simp [reconStep, hk]
    omega
  · simp [reconStep, hk]
  · cases ha : st.active with
    | nil => simp [reconStep, hk, ha]
    | cons x xs =>
      have hmem : maxBySnd x xs ∈ x :: xs := maxBySnd_mem x xs
      have hlt : ((x :: xs).filter
          (fun p => p.1 ≠ (maxBySnd x xs).1)).length < (x :: xs).length :=
        length_filter_lt_of_mem hmem (by simp)
      simp only [ne_eq, decide_not, List.length_cons] at hlt
      simp [reconStep, hk, ha]
      omega

/-- Fold form of conservation over any event list and start state. -/
theorem foldl_reconStep_conserves (l : List UserEvent) (st : ReconState) :
    (l.foldl reconStep st).matched + (l.foldl reconStep st).active.length ≤
      st.matched + st.active.length +
        l.countP (fun e => e.kind = .created) := by
  induction l generalizing st with
  | nil => simp
  | cons e es ih =>
    have h1 := reconStep_conserves st e
    have h2 := ih (reconStep st e)
    rw [List.foldl_cons, List.countP_cons]
    by_cases hk : e.kind = .created <;> simp [hk] at h1 ⊢ <;> omega

/-- C9: for every user event list, the number of matched (emitted)
cancellations after reconciliation is at most the number of Created events
plus the number of Renewed events of that user. -/
theorem C9_conservation (evs : List UserEvent) :
    (reconcileUser evs).matched ≤
      evs.countP (fun e => e.kind = .created) +
        evs.countP (fun e => e.kind = .renewed) := by
  have h := foldl_reconStep_conserves
    (evs.mergeSort (fun a b => a.date ≤ b.date)) {}
  have hperm := List.mergeSort_perm evs (fun a b => a.date ≤ b.date)
  have hc := hperm.countP_eq (fun e => e.kind = .created)
  rw [reconcileUser]
  simp only [List.length_nil, Nat.add_zero, Nat.zero_add] at h
  omega

/-- C5 counterexample: for a tier with zero subscribers the analyzer sets
`retention_rate = 0`, not `100` as the claim's zero-subscriber clause
predicts (both rates sit in the same `else` branch). -/
theorem C5_counterexample :
    (tierStats [] 5).total_users = 0 ∧
    (tierStats [] 5).retention_rate = 0 ∧ (0 : ℚ) ≠ 100 := by
  refine ⟨rfl, by decide, by norm_num⟩

/-- C5 amended: `active_count = subscriber_count − cancelled_count` always;
when `subscriber_count = 0` both churn and retention default to `0` (no
division-by-zero); when `subscriber_count > 0`,
`churn_rate = cancelled/subscribers·100` and
`retention_rate = 100 − churn_rate`. -/
theorem C5_churn_formulas (ud : UserData) (t : ℚ) :
    (tierStats ud t).active_users =
      ((tierStats ud t).total_users : Int) -
        ((tierStats ud t).total_cancelled : Int) ∧
    ((tierStats ud t).total_users = 0 →
      (tierStats ud t).churn_rate = 0 ∧
      (tierStats ud t).retention_rate = 0) ∧
    (0 < (tierStats ud t).total_users →
      (tierStats ud t).churn_rate =
        ((tierStats ud t).total_cancelled : ℚ) /
          ((tierStats ud t).total_users : ℚ) * 100 ∧
      (tierStats ud t).retention_rate = 100 - (tierStats ud t).churn_rate) := by
  refine ⟨rfl, ?_, ?_⟩
  · intro h
    have h' : ¬ ((ud.filter (fun p => isSubscriber p.2 t)).length > 0) := by
      simpa [tierStats] using h
    constructor <;> simp [tierStats, h']
  · intro h
    have h' : (ud.filter (fun p => isSubscriber p.2 t)).length > 0 := by
      simpa [tierStats] using h
    have hne : ((ud.filter (fun p => isSubscriber p.2 t)).length : ℚ) ≠ 0 := by
      exact_mod_cast Nat.pos_iff_ne_zero.mp h'
    constructor
    · simp [tierStats, h']
    · simp only [tierStats, if_pos h']
      field_simp
      ring

/-- C5 witness: the formulas applied to four tier-5 subscribers with one
cancellation give churn 25, retention 75, active count 3. -/
theorem C5_witness :
    (tierStats exampleUD 5).churn_rate = 25 ∧
    (tierStats exampleUD 5).retention_rate = 75 ∧
    (tierStats exampleUD 5).active_users = 3 := by
  obtain ⟨ha, h0, hp⟩ := C5_churn_formulas exampleUD 5
  have hu : (tierStats exampleUD 5).total_users = 4 := by decide
  have hc : (tierStats exampleUD 5).total_cancelled = 1 := by decide
  obtain ⟨hch, hr⟩ := hp (by rw [hu]; norm_num)
  refine ⟨?_, ?_, ?_⟩
  · rw [hch, hu, hc]
    norm_num
  · rw [hr, hch, hu, hc]
    norm_num
  · rw [ha, hu, hc]
    norm_num

/-- C6 counterexample: on the even-length multiset `[0, 2]` the analyzer's
median `sorted[len//2]` is the upper-middle element `2`, not the
lower-middle `0` that the claim predicts. -/
theorem C6_counterexample :
    renewalDist [0, 2] = some ⟨0, 2, 2, 1, 0, 1⟩ ∧
    ([0, 2].mergeSort (fun a b => a ≤ b)).getD (2 / 2 - 1) 0 = 0 ∧
    (2 : ℕ) ≠ 0 := by
  refine ⟨?_, ?_, by decide⟩ <;> simp [renewalDist, List.mergeSort]

/-- C6 amended: for every non-empty renewal-count multiset the reported
median is the element at index `⌊len/2⌋` of the ascending-sorted
permutation of the input — the UPPER-middle element when the length is
even; on `[0,0,1,2,3]` this gives min 0, max 3, median 1 and buckets
`no_renewals = 2`, `one_renewal = 1`, `multiple_renewals = 2`. -/
theorem C6_median_upper_middle :
    (∀ l : List ℕ, l ≠ [] →
      ∃ (d : RenewalDist) (s : List ℕ), renewalDist l = some d ∧
        s.Perm l ∧ s.Sorted (· ≤ ·) ∧
        d.median = s.getD (l.length / 2) 0) ∧
    renewalDist [0, 0, 1, 2, 3] = some ⟨0, 3, 1, 2, 1, 2⟩ := by
  constructor
  · intro l hl
    match l, hl with
    | x :: xs, _ =>
      refine ⟨_, (x :: xs).mergeSort (fun a b => a ≤ b), rfl,
        List.mergeSort_perm _ _, ?_, rfl⟩
      exact List.sorted_mergeSort' (x :: xs)
  · simp [renewalDist, List.mergeSort]

/-- C6 witness: the median characterisation applied to `[0, 0, 1, 2, 3]`. -/
theorem C6_witness :
    [0, 0, 1, 2, 3] ≠ ([] : List ℕ) ∧
    ∃ (d : RenewalDist) (s : List ℕ), renewalDist [0, 0, 1, 2, 3] = some d ∧
      s.Perm [0, 0, 1, 2, 3] ∧ s.Sorted (· ≤ ·) ∧
      d.median = s.getD ([0, 0, 1, 2, 3].length / 2) 0 :=
  ⟨by decide, C6_median_upper_middle.1 [0, 0, 1, 2, 3] (by decide)⟩

/-- C7 counterexample: in the message whose bold euro spans are `€abc` then
`€5`, the first span fails to parse, yet extraction returns `5` — the
`except ValueError: pass` continues the scan, so later spans ARE consulted,
contrary to the claim. -/
theorem C7_counterexample :
    pyFloat? (cleanAmountText "€abc") = none ∧
    extract_amount [⟨"bold", "€abc", none⟩, ⟨"bold", "€5", none⟩] = some 5 ∧
    some (5 : ℚ) ≠ none := by
  exact ⟨by decide, by decide, by simp⟩

/-- C7 amended: amount extraction returns the value of the FIRST bold
`€`-span whose cleaned text parses; spans that fail to parse are skipped
and the scan continues.  `€9,99` parses to 9.99 and a message whose only
span is `€abc` yields no amount (without raising). -/
theorem C7_first_parsing_span :
    (∀ es : List Entity, extract_amount es = extractAmountSpec es) ∧
    extract_amount [⟨"bold", "€9,99", none⟩] = some (mkRat 999 100) ∧
    extract_amount [⟨"bold", "€abc", none⟩] = none := by
  refine ⟨?_, by decide, by decide⟩
  intro es
  induction es with
  | nil => rfl
  | cons e rest ih =>
    by_cases hc : e.type = "bold" ∧ startsWithEuro e.text
    · cases hp : pyFloat? (cleanAmountText e.text) with
      | some v =>
        simp [extract_amount, extractAmountSpec, hc, hp]
      | none =>
        simp [extract_amount, extractAmountSpec, hc, hp]
        simpa [extractAmountSpec] using ih
    · simp [extract_amount, extractAmountSpec, hc]
      simpa [extractAmountSpec] using ih

/-- C10: a message classified Created (or Renewed) whose bold amount text
parses to the value 0 is dropped by both the analyzer loop and the
first-pass collector, because `if amount:` cannot distinguish `0.0` from
`None`; `€0,00` indeed parses to `0`. -/
theorem C10_zero_amount_dropped :
    (∀ (ud : UserData) (m : Message),
      extract_amount m.text_entities = some 0 →
      (strContains (extract_text m) createdPhrase = true ∨
       strContains (extract_text m) renewedPhrase = true) →
      processMsg ud m = ud) ∧
    (∀ (acc : List (String × List UserEvent)) (m : Message),
      extract_amount m.text_entities = some 0 →
      (strContains (extract_text m) createdPhrase = true ∨
       strContains (extract_text m) renewedPhrase = true) →
      collectMsg acc m = acc) ∧
    truthyAmount (some 0) = truthyAmount none ∧
    extract_amount [⟨"bold", "€0,00", none⟩] = some 0 := by
  refine ⟨?_, ?_, by decide, by decide⟩
  · intro ud m ha hcl
    cases hu : extract_user_id m.text_entities with
    | none => simp [processMsg, hu]
    | some u =>
      by_cases hue : u = ""
      · simp [processMsg, hu, hue]
      · rcases hcl with hcr | hre
        · simp [processMsg, hu, hue, hcr, ha]
        · by_cases hcr : strContains (extract_text m) createdPhrase = true
          · simp [processMsg, hu, hue, hcr, ha]
          · simp [processMsg, hu, hue, hcr, hre, ha]
  · intro acc m ha hcl
    cases hu : extract_user_id m.text_entities with
    | none => simp [collectMsg, hu]
    | some u =>
      cases hd : m.date with
      | none => simp [collectMsg, hu, hd]
      | some d =>
        by_cases hue : u = ""
        · simp [collectMsg, hu, hd, hue]
        · rcases hcl with hcr | hre
          · simp [collectMsg, hu, hd, hue, hcr, ha]
          · by_cases hcr : strContains (extract_text m) createdPhrase = true
            · simp [collectMsg, hu, hd, hue, hcr, ha]
            · simp [collectMsg, hu, hd, hue, hcr, hre, ha]

/-- C10 witness: both loops leave their state unchanged on the concrete
`€0,00` created message. -/
theorem C10_witness :
    processMsg [] msgZero = [] ∧ collectMsg [] msgZero = [] :=
  ⟨C10_zero_amount_dropped.1 [] msgZero (by decide) (Or.inl (by decide)),
   C10_zero_amount_dropped.2.1 [] msgZero (by decide) (Or.inl (by decide))⟩

/-- The identity scan passes over an entity that is neither a `mention` nor
a `mention_name` with truthy id. -/
theorem extract_user_id_skip (x : Entity) (rest : List Entity)
    (hx : ¬identMatch x) :
    extract_user_id (x :: rest) = extract_user_id rest := by
  by_cases h1 : x.type = "mention"
  · exact absurd (Or.inl h1) hx
  · by_cases h2 : x.type = "mention_name"
    · cases hu : x.user_id with
      | none => simp [extract_user_id, h1, h2, hu]
      | some uid =>
        by_cases h3 : uid ≠ 0
        · exact absurd (Or.inr ⟨h2, uid, hu, h3⟩) hx
        · simp [extract_user_id, h1, h2, hu, h3]
    · simp [extract_user_id, h1, h2]

/-- C8: the identity scan takes the first entity that matches — a `mention`
yields the stripped span text, being `"@" ++ mention-name` in the export
format; a `mention_name` with truthy numeric id yields `"user_" ++ id`;
with no matching entity the id is `None` and both processing loops skip the
message entirely. -/
theorem C8_identity_first_match :
    (∀ (pre : List Entity) (e : Entity) (post : List Entity) (u : String),
      (∀ x ∈ pre, ¬identMatch x) → e.type = "mention" →
      pyStrip e.text = "@" ++ u →
      extract_user_id (pre ++ e :: post) = some ("@" ++ u)) ∧
    (∀ (pre : List Entity) (e : Entity) (post : List Entity) (uid : Nat),
      (∀ x ∈ pre, ¬identMatch x) → e.type = "mention_name" →
      e.user_id = some uid → uid ≠ 0 →
      extract_user_id (pre ++ e :: post) = some ("user_" ++ toString uid)) ∧
    (∀ es : List Entity, (∀ x ∈ es, ¬identMatch x) →
      extract_user_id es = none) ∧
    (∀ (ud : UserData) (m : Message),
      extract_user_id m.text_entities = none → processMsg ud m = ud) ∧
    (∀ (acc : List (String × List UserEvent)) (m : Message),
      extract_user_id m.text_entities = none → collectMsg acc m = acc) := by
  refine ⟨?_, ?_, ?_, ?_, ?_⟩
  · intro pre e post u hpre he hs
    induction pre with
    | nil => simp [extract_user_id, he, hs]
    | cons x xs ih =>
      rw [List.cons_append,
        extract_user_id_skip x _ (hpre x (List.mem_cons_self x xs))]
      exact ih (fun y hy => hpre y (List.mem_cons.mpr (Or.inr hy)))
  · intro pre e post uid hpre he hid hne
    induction pre with
    | nil =>
      have hm : e.type ≠ "mention" := by
        rw [he]
        decide
      simp [extract_user_id, hm, he, hid, hne]
    | cons x xs ih =>
      rw [List.cons_append,
        extract_user_id_skip x _ (hpre x (List.mem_cons_self x xs))]
      exact ih (fun y hy => hpre y (List.mem_cons.mpr (Or.inr hy)))
  · intro es hes
    induction es with
    | nil => rfl
    | cons x xs ih =>
      rw [extract_user_id_skip x xs (hes x (List.mem_cons_self x xs))]
      exact ih (fun y hy => hes y (List.mem_cons.mpr (Or.inr hy)))
  · intro ud m h
    simp [processMsg, h]
  · intro acc m h
    cases hd : m.date <;> simp [collectMsg, h, hd]

/-- C8 witness: the scan rules at concrete entity lists — a falsy
`mention_name` (id 0) is passed over in favour of the later mention, and a
truthy `mention_name` yields the `user_`-prefixed key. -/
theorem C8_witness :
    extract_user_id [⟨"mention_name", "n", some 0⟩,
      ⟨"mention", " @bob ", none⟩] = some "@bob" ∧
    extract_user_id [⟨"mention_name", "n", some 7⟩] = some "user_7" := by
  constructor
  · have h := C8_identity_first_match.1 [⟨"mention_name", "n", some 0⟩]
      ⟨"mention", " @bob ", none⟩ [] "bob" ?_ rfl (by decide)
    · exact h
    · rintro x hx (hm | ⟨-, uid, huid, hne⟩)
      · simp only [List.mem_singleton] at hx
        subst hx
        exact absurd hm (by decide)
      · simp only [List.mem_singleton] at hx
        subst hx
        simp only [Option.some.injEq] at huid
        exact hne huid.symm
  · have h := C8_identity_first_match.2.1 [] ⟨"mention_name", "n", some 7⟩
      [] 7 (by simp) rfl rfl (by decide)
    simpa using h

/-- Appending a subscription date at tier `a` makes tier `a` pass the
subscriber test and leaves every other tier's test unchanged. -/
theorem isSubscriber_subUpdate (ui : UserInfo) (a : ℚ) (d : Nat) (t : ℚ) :
    isSubscriber { ui with tiers := updateKey ui.tiers a {} (fun ti =>
        { ti with subscriptions := ti.subscriptions ++ [d] }) } t =
      if t = a then true else isSubscriber ui t := by
  by_cases ht : t = a
  · subst ht
    simp [isSubscriber, lookupKey_updateKey]
  · simp [isSubscriber, lookupKey_updateKey, ht]

/-- Appending a renewal date never changes the subscriber test. -/
theorem isSubscriber_renewUpdate (ui : UserInfo) (a : ℚ) (d : Nat) (t : ℚ) :
    isSubscriber { ui with tiers := updateKey ui.tiers a {} (fun ti =>
        { ti with renewals := ti.renewals ++ [d] }) } t =
      isSubscriber ui t := by
  by_cases ht : t = a
  · subst ht
    cases hlk : lookupKey ui.tiers t <;>
      simp [isSubscriber, lookupKey_updateKey, hlk]
  · simp [isSubscriber, lookupKey_updateKey, ht]

/-- `recordSub` adds `(u', a)` to the subscriber relation and nothing else. -/
theorem isSubscriberIn_recordSub (ud : UserData) (u' : String) (a : ℚ)
    (d : Nat) (u : String) (t : ℚ) :
    isSubscriberIn (recordSub ud u' a d) u t ↔
      isSubscriberIn ud u t ∨ (u = u' ∧ t = a) := by
  unfold isSubscriberIn recordSub
  rw [lookupKey_updateKey]
  by_cases hu : u = u'
  · subst hu
    rw [if_pos rfl]
    constructor
    · rintro ⟨ui, hui, hsub⟩
      injection hui with h
      subst h
      rw [isSubscriber_subUpdate] at hsub
      by_cases ht : t = a
      · exact Or.inr ⟨rfl, ht⟩
      · rw [if_neg ht] at hsub
        left
        cases hlk : lookupKey ud u with
        | none =>
          rw [hlk] at hsub
          simp [isSubscriber, lookupKey_nil] at hsub
        | some ui' =>
          rw [hlk] at hsub
          exact ⟨ui', rfl, hsub⟩
    · rintro (⟨ui, hui, hsub⟩ | ⟨-, ht⟩)
      · refine ⟨_, rfl, ?_⟩
        rw [isSubscriber_subUpdate]
        by_cases ht : t = a
        · simp [ht]
        · rw [if_neg ht, hui]
          exact hsub
      · refine ⟨_, rfl, ?_⟩
        rw [isSubscriber_subUpdate, if_pos ht]
  · rw [if_neg hu]
    constructor
    · exact fun h => Or.inl h
    · rintro (h | ⟨huu, -⟩)
      · exact h
      · exact absurd huu hu

/-- `recordRenew` leaves the subscriber relation unchanged. -/
theorem isSubscriberIn_recordRenew (ud : UserData) (u' : String) (a : ℚ)
    (d : Nat) (u : String) (t : ℚ) :
    isSubscriberIn (recordRenew ud u' a d) u t ↔ isSubscriberIn ud u t := by
  unfold isSubscriberIn recordRenew
  rw [lookupKey_updateKey]
  by_cases hu : u = u'
  · subst hu
    rw [if_pos rfl]
    constructor
    · rintro ⟨ui, hui, hsub⟩
      injection hui with h
      subst h
      rw [isSubscriber_renewUpdate] at hsub
      cases hlk : lookupKey ud u with
      | none =>
        rw [hlk] at hsub
        simp [isSubscriber, lookupKey_nil] at hsub
      | some ui' =>
        rw [hlk] at hsub
        exact ⟨ui', rfl, hsub⟩
    · rintro ⟨ui, hui, hsub⟩
      refine ⟨_, rfl, ?_⟩
      rw [isSubscriber_renewUpdate, hui]
      exact hsub
  · rw [if_neg hu]

/-- `recordCancel` leaves the subscriber relation unchanged (it only sets
the `'_cancelled'` marker). -/
theorem isSubscriberIn_recordCancel (ud : UserData) (u' u : String) (t : ℚ) :
    isSubscriberIn (recordCancel ud u') u t ↔ isSubscriberIn ud u t := by
  unfold isSubscriberIn recordCancel
  rw [lookupKey_updateKey]
  by_cases hu : u = u'
  · subst hu
    rw [if_pos rfl]
    constructor
    · rintro ⟨ui, hui, hsub⟩
      injection hui with h
      subst h
      cases hlk : lookupKey ud u with
      | none =>
        rw [hlk] at hsub
        simp [isSubscriber, lookupKey_nil] at hsub
      | some ui' =>
        rw [hlk] at hsub
        exact ⟨ui', rfl, hsub⟩
    · rintro ⟨ui, hui, hsub⟩
      exact ⟨_, rfl, by rw [hui]; exact hsub⟩
  · rw [if_neg hu]

/-- One analyzer-loop step changes the subscriber relation exactly by the
created-message condition. -/
theorem isSubscriberIn_processMsg (ud : UserData) (m : Message) (u : String)
    (t : ℚ) :
    isSubscriberIn (processMsg ud m) u t ↔
      isSubscriberIn ud u t ∨ createdMsgFor u t m := by
  cases hid : extract_user_id m.text_entities with
  | none => simp [processMsg, hid, createdMsgFor]
  | some u' =>
    by_cases hue : u' = ""
    · simp only [processMsg, hid, if_pos hue]
      constructor
      · exact fun h => Or.inl h
      · rintro (h | ⟨h1, h2, -⟩)
        · exact h
        · rw [hid] at h1
          injection h1 with h1
          exact absurd (h1 ▸ hue) h2
    · by_cases hcr : strContains (extract_text m) createdPhrase = true
      · cases ham : extract_amount m.text_entities with
        | none => simp [processMsg, hid, hue, hcr, ham, createdMsgFor]
        | some a =>
          by_cases ha0 : a = 0
          · subst ha0
            simp [processMsg, hid, hue, hcr, ham, createdMsgFor]
            intro h1 h2 h3 h4
            exact absurd h3.symm h4
          · have hstep : processMsg ud m = recordSub ud u' a (m.date.getD 0) := by
              simp [processMsg, hid, hue, hcr, ham, ha0]
            rw [hstep, isSubscriberIn_recordSub]
            apply or_congr Iff.rfl
            unfold createdMsgFor
            rw [hid, ham]
            constructor
            · rintro ⟨rfl, rfl⟩
              exact ⟨rfl, hue, hcr, rfl, ha0⟩
            · rintro ⟨h1, -, -, h4, -⟩
              injection h1 with h1
              injection h4 with h4
              exact ⟨h1.symm, h4.symm⟩
      · by_cases hre : strContains (extract_text m) renewedPhrase = true
        · cases ham : extract_amount m.text_entities with
          | none => simp [processMsg, hid, hue, hcr, hre, ham, createdMsgFor]
          | some a =>
            by_cases ha0 : a = 0
            · subst ha0
              simp [processMsg, hid, hue, hcr, hre, ham, createdMsgFor]
            · have hstep : processMsg ud m =
                  recordRenew ud u' a (m.date.getD 0) := by
                simp [processMsg, hid, hue, hcr, hre, ham, ha0]
              rw [hstep, isSubscriberIn_recordRenew]
              simp [createdMsgFor, hcr]
        · by_cases hca : strContains (extract_text m) "отменил" = true ∧
              strContains (extract_text m) "подписку" = true
          · have hstep : processMsg ud m = recordCancel ud u' := by
              simp [processMsg, hid, hue, hcr, hre, hca]
            rw [hstep, isSubscriberIn_recordCancel]
            simp [createdMsgFor, hcr]
          · have hstep : processMsg ud m = ud := by
              simp [processMsg, hid, hue, hcr, hre, hca]
            rw [hstep]
            simp [createdMsgFor, hcr]

/-- Folding the analyzer loop accumulates exactly the created-message
conditions into the subscriber relation. -/
theorem isSubscriberIn_foldl (msgs : List Message) (ud : UserData)
    (u : String) (t : ℚ) :
    isSubscriberIn (msgs.foldl processMsg ud) u t ↔
      isSubscriberIn ud u t ∨ ∃ m ∈ msgs, createdMsgFor u t m := by
  induction msgs generalizing ud with
  | nil => simp
  | cons m ms ih =>
    rw [List.foldl_cons, ih, isSubscriberIn_processMsg]
    simp only [List.mem_cons]
    constructor
    · rintro ((h | h) | ⟨m', hm', h⟩)
      · exact Or.inl h
      · exact Or.inr ⟨m, Or.inl rfl, h⟩
      · exact Or.inr ⟨m', Or.inr hm', h⟩
    · rintro (h | ⟨m', hm' | hm', h⟩)
      · exact Or.inl (Or.inl h)
      · exact Or.inl (Or.inr (hm' ▸ h))
      · exact Or.inr ⟨m', hm', h⟩

/-- C4 counterexample: after processing the single renewal-only message,
`@alice` has one Renewed event recorded at tier 5 but the tier-5 subscriber
count is 0 — Renewed-only users are not counted, contrary to the claim. -/
theorem C4_counterexample :
    ((lookupKey (buildUserData [msgRenewOnly]) "@alice").map
      (fun ui => ((lookupKey ui.tiers 5).getD {}).renewals.length)) = some 1 ∧
    (tierStats (buildUserData [msgRenewOnly]) 5).total_users = 0 := by
  exact ⟨by decide, by decide⟩

/-- C4 amended: for every message log and tier in the known tier set, a user
is in that tier's subscriber set iff the log contains at least one message
recording a CREATED subscription for that user at that tier; Renewed events
alone never make a user a subscriber. -/
theorem C4_subscriber_iff_created (msgs : List Message) (u : String) (t : ℚ)
    (_ht : t ∈ amounts) :
    isSubscriberIn (buildUserData msgs) u t ↔
      ∃ m ∈ msgs, createdMsgFor u t m := by
  rw [buildUserData, isSubscriberIn_foldl]
  simp [isSubscriberIn, lookupKey_nil]

/-- C4 witness: the characterisation applied to the singleton log holding
one created message for `@carol` at tier 5 (a member of the tier set). -/
theorem C4_witness :
    isSubscriberIn (buildUserData [msgCreated]) "@carol" 5 ↔
      ∃ m ∈ [msgCreated], createdMsgFor "@carol" 5 m :=
  C4_subscriber_iff_created [msgCreated] "@carol" 5 (by decide)

end Montana

